import Mathlib

/-!
Shallow embedding of drivers/power/reset/reboot-mode.c.

Strings are modelled as `List Char` (one `Char` per byte of the C string,
no NUL terminator).  The 110-byte stack buffer `cmd_[110]` of
`get_reboot_mode_magic` becomes an explicit length guard: `strscpy`
returns `-E2BIG` exactly when `strlen(cmd) > 109`, i.e. when the string
together with its terminator does not fit in 110 bytes.

Allocation (`kzalloc`, `kstrdup_const`) is modelled by an oracle: a list
of `Bool`s consumed one per allocation; an exhausted oracle means every
further allocation succeeds.  The device-tree node is a list of
properties, each a name and a list of u32 cells.
-/

/-- One entry of the mode table: `struct mode_info` (name and u64 magic). -/
structure mode_info where
  mode : List Char
  magic : Nat
deriving DecidableEq

/-- Size of the fixed normalization buffer `char cmd_[110]`. -/
def cmd_buf_size : Nat := 110

/-- `strreplace(s, old, new)`: replace every occurrence of `old` by `new`. -/
def strreplace (s : List Char) (old new : Char) : List Char :=
  s.map fun c => if c = old then new else c

/-- The default command, `"normal"`. -/
def normal_cmd : List Char := "normal".toList

/-- The three `strreplace` calls of `get_reboot_mode_magic`:
space, comma and slash each become a hyphen. -/
def dt_normalize (cmd : List Char) : List Char :=
  strreplace (strreplace (strreplace cmd ' ' '-') ',' '-') '/' '-'

/-- `get_reboot_mode_magic(reboot, cmd)`: a missing `cmd` defaults to
`"normal"`; first an exact scan of the list, then, when the command fits
the 110-byte buffer, a scan against the normalized copy; `0` when
nothing matches or the command is too long. -/
def get_reboot_mode_magic (head : List mode_info) (cmd? : Option (List Char)) : Nat :=
  let cmd := cmd?.getD normal_cmd
  match head.find? (fun i => i.mode == cmd) with
  | some info => info.magic
  | none =>
    if cmd_buf_size ≤ cmd.length then 0
    else
      match head.find? (fun i => i.mode == dt_normalize cmd) with
      | some info => info.magic
      | none => 0

/-- Return values of a Linux notifier callback. -/
inductive notifier_ret where
  | NOTIFY_DONE
  | NOTIFY_OK
  | NOTIFY_BAD
  | NOTIFY_STOP
deriving DecidableEq

/-- `reboot_mode_notify`: resolves the magic, invokes the write callback
only when the magic is non-zero, and always returns `NOTIFY_DONE`.  The
first component records the argument passed to `reboot->write`
(`none` = the callback was not invoked). -/
def reboot_mode_notify (head : List mode_info) (cmd? : Option (List Char)) :
    Option Nat × notifier_ret :=
  let magic := get_reboot_mode_magic head cmd?
  (if magic ≠ 0 then some magic else none, notifier_ret.NOTIFY_DONE)

/-- Error numbers used by the driver (a fragment of the kernel errno space). -/
inductive errno where
  | EINVAL
  | ENOMEM
  | E2BIG
  | EIO
deriving DecidableEq

/-- One device-tree property: a name and its value decoded as u32 cells. -/
structure dt_property where
  name : List Char
  cells : List Nat
deriving DecidableEq

/-- The C macro `PREFIX`, the string `"mode-"`. -/
def MODE_TAG : List Char := "mode-".toList

/-- One allocation against the oracle: pop the next outcome; an empty
oracle always succeeds. -/
def alloc_step : List Bool → Bool × List Bool
  | [] => (true, [])
  | b :: rest => (b, rest)

/-- `info->magic = ((u64)magic_arg2 << 32) | magic_arg1` where
`magic_arg2` defaults to 0 when the property has no second cell. -/
def mk_magic (magic_arg1 : Nat) (hi : List Nat) : Nat :=
  ((hi.headD 0 % 2 ^ 32) <<< 32) ||| (magic_arg1 % 2 ^ 32)

/-- The `for_each_property_of_node` loop of `reboot_mode_register`:
skip names without the `"mode-"` tag, `kzalloc` the entry, skip entries
whose property has no u32 cell (no magic), `kstrdup_const` the name,
fail with `EINVAL` on an empty name, and append to the tail of the list.
Returns the error (if any) together with the entries inserted so far. -/
def register_scan : List dt_property → List Bool → List mode_info →
    Option errno × List mode_info
  | [], _, acc => (none, acc)
  | p :: rest, oracle, acc =>
    if MODE_TAG.isPrefixOf p.name then
      if (alloc_step oracle).1 then
        match p.cells with
        | [] => register_scan rest (alloc_step oracle).2 acc
        | magic_arg1 :: hi =>
          if (alloc_step (alloc_step oracle).2).1 then
            if p.name.drop MODE_TAG.length = [] then (some errno.EINVAL, acc)
            else register_scan rest (alloc_step (alloc_step oracle).2).2
              (acc ++ [⟨p.name.drop MODE_TAG.length, mk_magic magic_arg1 hi⟩])
          else (some errno.ENOMEM, acc)
      else (some errno.ENOMEM, acc)
    else register_scan rest oracle acc

/-- The `error:` label of `reboot_mode_register`:
`list_for_each_entry_safe` deletes and frees every inserted entry. -/
def error_cleanup : List mode_info → List mode_info
  | [] => []
  | _ :: rest => error_cleanup rest

/-- `reboot_mode_register(reboot, np)`: scan the properties; on success
the built list is kept, on failure every inserted entry is released and
the error is returned. -/
def reboot_mode_register (props : List dt_property) (oracle : List Bool) :
    Except errno Unit × List mode_info :=
  match register_scan props oracle [] with
  | (none, head) => (Except.ok (), head)
  | (some e, head) => (Except.error e, error_cleanup head)

/-- The table `reboot_mode_register` builds when every allocation
succeeds: the qualifying properties, in scan order, those without a u32
cell skipped. -/
def expected_table : List dt_property → List mode_info
  | [] => []
  | p :: rest =>
    if MODE_TAG.isPrefixOf p.name then
      match p.cells with
      | [] => expected_table rest
      | magic_arg1 :: hi =>
        ⟨p.name.drop MODE_TAG.length, mk_magic magic_arg1 hi⟩ :: expected_table rest
    else expected_table rest

/-- The exact-match pass: when some entry's name equals the command
verbatim the resolver returns the first such entry's magic. -/
theorem resolve_exact (head : List mode_info) (cmd : List Char) (info : mode_info)
    (h : head.find? (fun i => i.mode == cmd) = some info) :
    get_reboot_mode_magic head (some cmd) = info.magic := by
  simp [get_reboot_mode_magic, h]

/-- The normalized pass: when the exact pass fails and the command fits
the buffer, the resolver returns the magic of the first entry whose name
equals the normalized command. -/
theorem resolve_norm (head : List mode_info) (cmd : List Char) (info : mode_info)
    (h₁ : head.find? (fun i => i.mode == cmd) = none)
    (h₂ : cmd.length < cmd_buf_size)
    (h₃ : head.find? (fun i => i.mode == dt_normalize cmd) = some info) :
    get_reboot_mode_magic head (some cmd) = info.magic := by
  simp [get_reboot_mode_magic, h₁, h₃, Nat.not_le_of_lt h₂]

/-- No match at all: when the exact pass fails and the command is at
least as long as the buffer, the resolver returns 0. -/
theorem resolve_overlong (head : List mode_info) (cmd : List Char)
    (h₁ : head.find? (fun i => i.mode == cmd) = none)
    (h₂ : cmd_buf_size ≤ cmd.length) :
    get_reboot_mode_magic head (some cmd) = 0 := by
  simp [get_reboot_mode_magic, h₁, h₂]

/-- C5: for every table built by inserting two entries with the same
name in order `A(magic=1)` then `A(magic=2)`, resolving `A` returns 1:
duplicate names coexist and the first match in insertion order wins. -/
theorem c5_first_match_wins (A : List Char) :
    get_reboot_mode_magic [⟨A, 1⟩, ⟨A, 2⟩] (some A) = 1 := by
  simp [get_reboot_mode_magic, List.find?]

/-- C6: resolving with an absent command is the same as resolving the
literal string `"normal"`. -/
theorem c6_none_defaults_to_normal (head : List mode_info) :
    get_reboot_mode_magic head none = get_reboot_mode_magic head (some ("normal".toList)) :=
  rfl

/-- C8: the reboot notification handler always reports `NOTIFY_DONE` to
the notifier chain, whether or not a magic was found. -/
theorem c8_always_notify_done (head : List mode_info) (cmd? : Option (List Char)) :
    (reboot_mode_notify head cmd?).2 = notifier_ret.NOTIFY_DONE :=
  rfl

/-- C10: the exact-match pass is not subject to the length bound: for a
command of any length, if some entry's name equals it verbatim, the
resolver returns the first such entry's magic. -/
theorem c10_exact_match_unbounded (head : List mode_info) (cmd : List Char)
    (info : mode_info)
    (h : head.find? (fun i => i.mode == cmd) = some info) :
    get_reboot_mode_magic head (some cmd) = info.magic :=
  resolve_exact head cmd info h

/-- A 120-character command, well beyond the 110-byte buffer. -/
def long_cmd : List Char := List.replicate 120 'x'

/-- C10 witness: an exact match on a 120-character command (longer than
the normalization buffer) still resolves to its magic. -/
theorem c10_exact_match_unbounded_witness :
    cmd_buf_size ≤ long_cmd.length ∧
    get_reboot_mode_magic [⟨long_cmd, 9⟩] (some long_cmd) = 9 :=
  ⟨by decide, c10_exact_match_unbounded [⟨long_cmd, 9⟩] long_cmd ⟨long_cmd, 9⟩ (by rfl)⟩

/-- C9: a stored magic of 0 is indistinguishable from "not found" at the
dispatch decision: when the entry the resolver selects (exactly, or via
the normalized pass) has magic 0, the write callback is not invoked. -/
theorem c9_zero_magic_no_write (head : List mode_info) (cmd : List Char)
    (info : mode_info)
    (h : head.find? (fun i => i.mode == cmd) = some info ∨
         (head.find? (fun i => i.mode == cmd) = none ∧ cmd.length < cmd_buf_size ∧
          head.find? (fun i => i.mode == dt_normalize cmd) = some info))
    (h0 : info.magic = 0) :
    (reboot_mode_notify head (some cmd)).1 = none := by
  have hz : get_reboot_mode_magic head (some cmd) = 0 := by
    rcases h with h | ⟨h₁, h₂, h₃⟩
    · rw [resolve_exact head cmd info h, h0]
    · rw [resolve_norm head cmd info h₁ h₂ h₃, h0]
  simp [reboot_mode_notify, hz]

/-- C9 witness: an entry `("recovery", 0)` matched exactly does not
trigger the write callback. -/
theorem c9_zero_magic_no_write_witness :
    (reboot_mode_notify [⟨"recovery".toList, 0⟩] (some ("recovery".toList))).1 = none :=
  c9_zero_magic_no_write _ _ ⟨"recovery".toList, 0⟩ (Or.inl (by rfl)) rfl

/-- A 110-character command: with its terminator it needs 111 bytes and
does not fit the 110-byte buffer. -/
def cmd110 : List Char := List.replicate 110 'a'

/-- C3 counterexample: a table entry whose name is an overlong command
is still found by the exact pass, so `Resolve` does not return NotFound
on every overlong command, contrary to the claim. -/
theorem c3_counterexample :
    cmd_buf_size ≤ cmd110.length ∧
    ¬ get_reboot_mode_magic [⟨cmd110, 5⟩] (some cmd110) = 0 := by
  decide

/-- C3 (amended): for every table with no entry equal to the overlong
command verbatim, an overlong command resolves to 0 (NotFound) without
the normalization pass being attempted. -/
theorem c3_overlong_not_found (head : List mode_info) (cmd : List Char)
    (h₁ : cmd_buf_size ≤ cmd.length)
    (h₂ : head.find? (fun i => i.mode == cmd) = none) :
    get_reboot_mode_magic head (some cmd) = 0 :=
  resolve_overlong head cmd h₂ h₁

/-- C3 witness: a 110-character command with no verbatim match resolves
to 0. -/
theorem c3_overlong_not_found_witness :
    cmd_buf_size ≤ cmd110.length ∧
    get_reboot_mode_magic [⟨"a".toList, 3⟩] (some cmd110) = 0 :=
  ⟨by decide, c3_overlong_not_found [⟨"a".toList, 3⟩] cmd110 (by decide) (by rfl)⟩

/-- The error path frees every inserted entry: nothing remains. -/
theorem error_cleanup_nil (l : List mode_info) : error_cleanup l = [] := by
  induction l with
  | nil => rfl
  | cons a rest ih => simpa [error_cleanup] using ih

/-- Every error the scan can produce is `EINVAL` or `ENOMEM`. -/
theorem register_scan_error_code (props : List dt_property) :
    ∀ oracle acc e hd, register_scan props oracle acc = (some e, hd) →
      e = errno.EINVAL ∨ e = errno.ENOMEM := by
  induction props with
  | nil =>
    intro oracle acc e hd h
    simp [register_scan] at h
  | cons p rest ih =>
    intro oracle acc e hd h
    simp only [register_scan] at h
    split at h
    · split at h
      · split at h
        · exact ih _ _ _ _ h
        · split at h
          · split at h
            · simp only [Prod.mk.injEq, Option.some.injEq] at h
              exact Or.inl h.1.symm
            · exact ih _ _ _ _ h
          · simp only [Prod.mk.injEq, Option.some.injEq] at h
            exact Or.inr h.1.symm
      · simp only [Prod.mk.injEq, Option.some.injEq] at h
        exact Or.inr h.1.symm
    · exact ih _ _ _ _ h

/-- C4: construction is all-or-nothing: whenever registration returns an
error, that error is `EINVAL` (empty mode name) or `ENOMEM` (failed
allocation), and the resulting list is empty — every entry inserted
before the failure has been released, no partial table is retained. -/
theorem c4_all_or_nothing (props : List dt_property) (oracle : List Bool) (e : errno)
    (h : (reboot_mode_register props oracle).1 = Except.error e) :
    (reboot_mode_register props oracle).2 = [] ∧
    (e = errno.EINVAL ∨ e = errno.ENOMEM) := by
  unfold reboot_mode_register at h ⊢
  rcases hsc : register_scan props oracle [] with ⟨oe, hd⟩
  cases oe with
  | none =>
    rw [hsc] at h
    simp at h
  | some e' =>
    rw [hsc] at h
    simp only [Except.error.injEq] at h
    subst h
    exact ⟨error_cleanup_nil hd, register_scan_error_code props _ _ _ _ hsc⟩

/-- C4 witness: a property named exactly `"mode-"` (empty mode name)
makes registration fail with `EINVAL` and leave no entries behind. -/
theorem c4_all_or_nothing_witness :
    (reboot_mode_register [⟨"mode-".toList, [1]⟩] []).2 = [] ∧
    (errno.EINVAL = errno.EINVAL ∨ errno.EINVAL = errno.ENOMEM) :=
  c4_all_or_nothing [⟨"mode-".toList, [1]⟩] [] errno.EINVAL (by rfl)

/-- When every allocation succeeds and no qualifying name is empty, the
scan appends exactly the expected entries, in order. -/
theorem register_scan_all_ok (props : List dt_property) :
    ∀ acc, (∀ p ∈ props, MODE_TAG.isPrefixOf p.name → p.name.drop MODE_TAG.length ≠ []) →
      register_scan props [] acc = (none, acc ++ expected_table props) := by
  induction props with
  | nil =>
    intro acc _
    simp [register_scan, expected_table]
  | cons p rest ih =>
    intro acc h
    have hrest : ∀ q ∈ rest, MODE_TAG.isPrefixOf q.name → q.name.drop MODE_TAG.length ≠ [] :=
      fun q hq => h q (List.mem_cons_of_mem _ hq)
    by_cases hp : MODE_TAG.isPrefixOf p.name
    · have hne := h p (List.mem_cons_self _ _) hp
      rcases hc : p.cells with _ | ⟨magic_arg1, hi⟩
      · simp [register_scan, expected_table, hp, hc, alloc_step, ih _ hrest]
      · simp [register_scan, expected_table, hp, hc, alloc_step, hne, ih _ hrest]
    · simp [register_scan, expected_table, hp, ih _ hrest]

/-- The expected table has one entry per qualifying property that
carries at least one u32 cell. -/
theorem expected_table_length (props : List dt_property) :
    (expected_table props).length =
      (props.filter fun p => MODE_TAG.isPrefixOf p.name && !p.cells.isEmpty).length := by
  induction props with
  | nil => rfl
  | cons p rest ih =>
    by_cases hp : MODE_TAG.isPrefixOf p.name
    · rcases hc : p.cells with _ | ⟨magic_arg1, hi⟩
      · simp [expected_table, List.filter_cons, hp, hc, ih]
      · simp [expected_table, List.filter_cons, hp, hc, ih]
    · simp [expected_table, List.filter_cons, hp, ih]

/-- C7: on a snapshot with no empty qualifying names and no allocation
failure, registration succeeds and builds exactly the qualifying entries
in scan order, silently skipping those without a low magic cell, so the
table has one entry per qualifying property carrying a magic value. -/
theorem c7_build_exact (props : List dt_property)
    (h : ∀ p ∈ props, MODE_TAG.isPrefixOf p.name → p.name.drop MODE_TAG.length ≠ []) :
    reboot_mode_register props [] = (Except.ok (), expected_table props) ∧
    (expected_table props).length =
      (props.filter fun p => MODE_TAG.isPrefixOf p.name && !p.cells.isEmpty).length := by
  refine ⟨?_, expected_table_length props⟩
  unfold reboot_mode_register
  rw [register_scan_all_ok props [] h]
  simp

/-- Four demo properties: two full modes, one foreign property, one
mode listed without a magic value. -/
def demo_props : List dt_property :=
  [⟨"mode-recovery".toList, [1]⟩, ⟨"compatible".toList, [7]⟩,
   ⟨"mode-doc".toList, []⟩, ⟨"mode-loader".toList, [2, 3]⟩]

/-- C7 witness: the demo snapshot registers successfully with the two
magic-carrying mode properties, in order. -/
theorem c7_build_exact_witness :
    reboot_mode_register demo_props [] = (Except.ok (), expected_table demo_props) ∧
    (expected_table demo_props).length =
      (demo_props.filter fun p => MODE_TAG.isPrefixOf p.name && !p.cells.isEmpty).length :=
  c7_build_exact demo_props (by decide)

/-- A table with two entries named `"re-covery"`; the one with magic
0x2A comes second. -/
def c1_table : List mode_info :=
  [⟨"re-covery".toList, 7⟩, ⟨"re-covery".toList, 42⟩]

/-- C1 counterexample: the table contains an entry named `"re-covery"`
with magic 0x2A and no entry named `"re/covery"` (nor `"re covery"` or
`"re,covery"`), yet resolving `"re/covery"` does not return 0x2A — an
earlier entry with the same name wins the normalized scan. -/
theorem c1_counterexample :
    (⟨"re-covery".toList, 42⟩ : mode_info) ∈ c1_table ∧
    (∀ i ∈ c1_table, ¬ i.mode = "re/covery".toList) ∧
    (∀ i ∈ c1_table, ¬ i.mode = "re covery".toList) ∧
    (∀ i ∈ c1_table, ¬ i.mode = "re,covery".toList) ∧
    ¬ get_reboot_mode_magic c1_table (some ("re/covery".toList)) = 42 := by
  decide

/-- C1 (amended): when the first entry named `"re-covery"` has magic
0x2A and no entry is named `"re/covery"`, `"re covery"` or `"re,covery"`
verbatim, each of those three requests resolves to 0x2A: after the exact
pass fails, space, comma and slash are replaced by hyphens and the table
is scanned again in order. -/
theorem c1_separator_requests (head : List mode_info) (info : mode_info)
    (hm : head.find? (fun i => i.mode == "re-covery".toList) = some info)
    (hmag : info.magic = 42)
    (h₁ : head.find? (fun i => i.mode == "re/covery".toList) = none)
    (h₂ : head.find? (fun i => i.mode == "re covery".toList) = none)
    (h₃ : head.find? (fun i => i.mode == "re,covery".toList) = none) :
    get_reboot_mode_magic head (some ("re/covery".toList)) = 42 ∧
    get_reboot_mode_magic head (some ("re covery".toList)) = 42 ∧
    get_reboot_mode_magic head (some ("re,covery".toList)) = 42 := by
  have n₁ : dt_normalize ("re/covery".toList) = "re-covery".toList := by decide
  have n₂ : dt_normalize ("re covery".toList) = "re-covery".toList := by decide
  have n₃ : dt_normalize ("re,covery".toList) = "re-covery".toList := by decide
  refine ⟨?_, ?_, ?_⟩
  · rw [resolve_norm head _ info h₁ (by decide) (by rw [n₁]; exact hm), hmag]
  · rw [resolve_norm head _ info h₂ (by decide) (by rw [n₂]; exact hm), hmag]
  · rw [resolve_norm head _ info h₃ (by decide) (by rw [n₃]; exact hm), hmag]

/-- C1 witness: the single-entry table `("re-covery", 0x2A)` resolves
all three separator variants to 0x2A. -/
theorem c1_separator_requests_witness :
    get_reboot_mode_magic [⟨"re-covery".toList, 42⟩] (some ("re/covery".toList)) = 42 ∧
    get_reboot_mode_magic [⟨"re-covery".toList, 42⟩] (some ("re covery".toList)) = 42 ∧
    get_reboot_mode_magic [⟨"re-covery".toList, 42⟩] (some ("re,covery".toList)) = 42 :=
  c1_separator_requests [⟨"re-covery".toList, 42⟩] ⟨"re-covery".toList, 42⟩
    (by rfl) rfl (by rfl) (by rfl) (by rfl)

/-- A table with the single entry `("recovery", 0x1)`. -/
def c2_table : List mode_info := [⟨"recovery".toList, 1⟩]

/-- C2 counterexample: the table contains `("recovery", 0x1)` and no
entry named `"re/covery"`, yet resolving `"re/covery"` does not return
0x1: the slash becomes a hyphen, giving `"re-covery"`, which matches
neither `"recovery"` nor anything else. -/
theorem c2_counterexample :
    (⟨"recovery".toList, 1⟩ : mode_info) ∈ c2_table ∧
    (∀ i ∈ c2_table, ¬ i.mode = "re/covery".toList) ∧
    ¬ get_reboot_mode_magic c2_table (some ("re/covery".toList)) = 1 := by
  decide

/-- C2 (amended): when the first entry named `"re-covery"` has magic 0x1
and no entry is named `"re/covery"` verbatim, resolving `"re/covery"`
returns 0x1 via the normalized slash-to-hyphen pass. -/
theorem c2_slash_to_hyphen (head : List mode_info) (info : mode_info)
    (hm : head.find? (fun i => i.mode == "re-covery".toList) = some info)
    (hmag : info.magic = 1)
    (h₁ : head.find? (fun i => i.mode == "re/covery".toList) = none) :
    get_reboot_mode_magic head (some ("re/covery".toList)) = 1 := by
  have n₁ : dt_normalize ("re/covery".toList) = "re-covery".toList := by decide
  rw [resolve_norm head _ info h₁ (by decide) (by rw [n₁]; exact hm), hmag]

/-- C2 witness: the single-entry table `("re-covery", 0x1)` resolves
`"re/covery"` to 0x1. -/
theorem c2_slash_to_hyphen_witness :
    get_reboot_mode_magic [⟨"re-covery".toList, 1⟩] (some ("re/covery".toList)) = 1 :=
  c2_slash_to_hyphen [⟨"re-covery".toList, 1⟩] ⟨"re-covery".toList, 1⟩
    (by rfl) rfl (by rfl)
